import Mathlib

/-!
Verification of the TaskManager repository's task persistence and ordering
model: a shallow embedding of `saveTask` (src/app/screens/add-task),
`loadTasks`, `saveTasks`, `toggleTask`, the inline sort comparator and
`getDueDateColor` (src/app/screens/task-list.tsx), together with proofs of
the specified properties.

Modelling conventions:
* An instant (a JS `Date` / `Date.now()` value) is an `Int` of milliseconds
  since the Unix epoch; a calendar date (a `"YYYY-MM-DD"` string) is
  represented by its day number (days since 1970-01-01), the representation
  being injective and order-preserving for the string forms the code
  produces.  `daysFromCivil` converts a civil `y-m-d` date to its day
  number, so concrete dates can be written explicitly.
* The AsyncStorage value under the key `"tasks"` is `Option Blob`:
  `Blob.tasks ts` is a well-formed JSON serialization of the list `ts`
  (always a non-empty, hence JS-truthy, string) and `Blob.corrupt s` is any
  string `s` that does not parse as a task list (`JSON.parse` throws on
  it).  JS truthiness of the stored string is `blobTruthy`: the corrupt
  string `""` is falsy, everything else is truthy.
* `Math.ceil(timeDiff / 86400000)` is modelled by the exact integer
  ceiling division `ceilDiv`: with `|timeDiff|` far below 2^53 the
  floating-point quotient never crosses an integer away from the exact
  quotient, so the double computation agrees with the exact one.
-/

namespace TaskManager

/-- Milliseconds per day, the constant `1000 * 3600 * 24` of the code. -/
def msPerDay : Int := 86400000

/-- Day number (days since 1970-01-01) of a civil date, for writing
concrete dates; divisions are floor divisions on the values involved. -/
def daysFromCivil (y m d : Int) : Int :=
  let yy := if m ≤ 2 then y - 1 else y
  let era := Int.ediv (if 0 ≤ yy then yy else yy - 399) 400
  let yoe := yy - era * 400
  let mp := Int.emod (m + 9) 12
  let doy := Int.ediv (153 * mp + 2) 5 + d - 1
  let doe := yoe * 365 + Int.ediv yoe 4 - Int.ediv yoe 100 + doy
  era * 146097 + doe - 719468

/-- JS `String.prototype.trim`: the string with leading and trailing
whitespace removed (the `name.trim()` calls of `saveTask`). -/
def jsTrim (s : String) : String :=
  ⟨((s.data.dropWhile Char.isWhitespace).reverse.dropWhile Char.isWhitespace).reverse⟩

/-- The `Task` type of `@/types/task`: `id` and `name` are strings,
`dueDate` is a `"YYYY-MM-DD"` string represented by its day number,
`done` is the completion flag. -/
structure Task where
  id : String
  name : String
  dueDate : Int
  done : Bool
deriving DecidableEq

/-- The string stored under the `"tasks"` key, as seen by `JSON.parse`:
either a well-formed serialization of a task list, or a corrupt string. -/
inductive Blob where
  | tasks (ts : List Task)
  | corrupt (s : String)
deriving DecidableEq

/-- The storage cell under the key `"tasks"`; `none` is an absent key
(`AsyncStorage.getItem` returns `null`). -/
abbrev Store := Option Blob

/-- JS truthiness of the stored string: a serialized array is `"[...]"`,
never empty, so always truthy; a corrupt string is truthy iff non-empty. -/
def blobTruthy : Blob → Bool
  | .tasks _ => true
  | .corrupt s => s != ""

/-- `JSON.parse` on the stored string: succeeds exactly on well-formed
serializations. -/
def parseBlob : Blob → Option (List Task)
  | .tasks ts => some ts
  | .corrupt _ => none

/-- The expression `storedTasks ? JSON.parse(storedTasks) : []` of
`saveTask`: a falsy stored value (absent key or empty string) yields `[]`,
a truthy one is parsed, `none` modelling the thrown `SyntaxError`. -/
def jsParseStored : Store → Option (List Task)
  | none => some []
  | some b => if blobTruthy b then parseBlob b else some []

/-- Outcome of the `saveTask` handler: navigate back on success, the
validation alert, or the catch-branch alert `"Failed to save task"`. -/
inductive CreateOutcome where
  | success
  | validationError
  | saveError
deriving DecidableEq

/-- A storage I/O operation performed by a handler. -/
inductive StoreEvent where
  | read
  | write
deriving DecidableEq

/-- Result of running `saveTask`: the storage cell afterwards, the
user-visible outcome, and the storage operations performed in order. -/
structure CreateResult where
  store : Store
  outcome : CreateOutcome
  events : List StoreEvent
deriving DecidableEq

/-- `dueDate.toISOString().split("T")[0]`: the UTC calendar date of an
instant, dropping the time-of-day component. -/
def dateOnly (instant : Int) : Int := Int.ediv instant msPerDay

/-- The task object built by `saveTask`: `id` is `Date.now().toString()`,
`name` is trimmed, `dueDate` is the date-only part, `done` is `false`. -/
def newTask (now : Int) (name : String) (due : Int) : Task :=
  { id := toString now, name := jsTrim name, dueDate := dateOnly due, done := false }

/-- `saveTask` of src/app/screens/add-task: reject a name that trims to
empty before any I/O; otherwise read the cell, parse (a parse failure is
caught with no write), append the new task and write the result back. -/
def saveTask (name : String) (due : Int) (now : Int) (store : Store) : CreateResult :=
  if jsTrim name = "" then
    { store := store, outcome := .validationError, events := [] }
  else
    match jsParseStored store with
    | none => { store := store, outcome := .saveError, events := [.read] }
    | some tasks =>
      { store := some (.tasks (tasks ++ [newTask now name due])),
        outcome := .success,
        events := [.read, .write] }

/-- `loadTasks` of task-list.tsx acting on the `tasks` state: `setTasks`
runs only when the stored value is truthy and parses; otherwise (absent
key, falsy value, or caught parse error) the state keeps its prior value. -/
def loadTasks (store : Store) (prior : List Task) : List Task :=
  match store with
  | none => prior
  | some b =>
    if blobTruthy b then
      match parseBlob b with
      | some ts => ts
      | none => prior
    else prior

/-- The collection the list screen shows after loading with the initial
state `[]`: the spec's `readAll`. -/
def readAll (store : Store) : List Task := loadTasks store []

/-- Result of running `toggleTask`: the `tasks` state afterwards, whether
`saveTasks` wrote, and the notifications emitted (task name paired with
the new completion flag). -/
structure ToggleResult where
  tasks : List Task
  wrote : Bool
  notifs : List (String × Bool)
deriving DecidableEq

/-- `toggleTask` of task-list.tsx: find the task by `id` (absent: return
with no write and no notification); otherwise set every task with that
`id` to the negation of the found task's `done`, write, and notify. -/
def toggleTask (ts : List Task) (id : String) : ToggleResult :=
  match ts.find? (fun t => t.id == id) with
  | none => { tasks := ts, wrote := false, notifs := [] }
  | some t =>
    { tasks := ts.map (fun u => if u.id == id then { u with done := !t.done } else u),
      wrote := true,
      notifs := [(t.name, !t.done)] }

/-- The inline comparator of the `FlatList` `data` expression:
`0` split as a difference of `getTime` values on equal `done`, otherwise
`1` when `a` is done and `-1` when it is not. -/
def taskCmp (a b : Task) : Int :=
  if a.done == b.done then a.dueDate * msPerDay - b.dueDate * msPerDay
  else if a.done then 1 else -1

/-- The non-strict order induced by the comparator, as used by a
comparator-consistent sort. -/
def taskLE (a b : Task) : Prop := taskCmp a b ≤ 0

instance : DecidableRel taskLE := fun a b => inferInstanceAs (Decidable (taskCmp a b ≤ 0))

/-- `tasks.sort(comparator)`: a stable sort consistent with the
comparator (`Array.prototype.sort` is required to be stable). -/
def sortTasks (ts : List Task) : List Task := List.insertionSort taskLE ts

/-- The render expression `data={tasks.sort(...)}`: `Array.prototype.sort`
sorts in place and returns the same array, so the displayed list and the
post-render content of the `tasks` state array are both the sorted list. -/
def renderSort (ts : List Task) : List Task × List Task :=
  (sortTasks ts, sortTasks ts)

/-- Exact integer ceiling division (divisor positive in all uses). -/
def ceilDiv (a b : Int) : Int := -((-a) / b)

/-- `getDueDateColor` of task-list.tsx: `dateDay` is the parsed
`"YYYY-MM-DD"` string (UTC midnight of that day), `now` the instant
`new Date()`. -/
def getDueDateColor (dateDay : Int) (now : Int) : String :=
  let timeDiff := dateDay * msPerDay - now
  let daysDiff := ceilDiv timeDiff msPerDay
  if daysDiff < 0 then "#ff4444"
  else if daysDiff = 0 then "#ffa500"
  else if daysDiff ≤ 2 then "#ffd700"
  else "#666"

/-- A lifecycle operation on the collection, as the spec's Create/Toggle
act on a well-formed store. -/
inductive Op where
  | create (name : String) (due : Int) (now : Int)
  | toggle (id : String)

/-- Effect of one lifecycle operation on the persisted collection: a
Create with a name trimming to empty changes nothing, otherwise it
appends `newTask`; a Toggle applies `toggleTask`. -/
def applyOp (ts : List Task) : Op → List Task
  | .create name due now =>
    if jsTrim name = "" then ts else ts ++ [newTask now name due]
  | .toggle id => (toggleTask ts id).tasks

/-- A sequence of lifecycle operations, applied left to right. -/
def applyOps (ts : List Task) (ops : List Op) : List Task :=
  ops.foldl applyOp ts

/-- Along the sequence, every Create that appends does so with a
timestamp string distinct from every `id` present at that moment. -/
def freshOps (ts : List Task) : List Op → Bool
  | [] => true
  | .create name due now :: ops =>
    (jsTrim name == "" || (ts.map Task.id).all (fun i => i != toString now))
      && freshOps (applyOp ts (.create name due now)) ops
  | .toggle id :: ops => freshOps (applyOp ts (.toggle id)) ops

example : daysFromCivil 1970 1 1 = 0 := by decide
example : daysFromCivil 2024 6 10 = 19884 := by decide


theorem taskLE_iff (a b : Task) :
    taskLE a b ↔
      (a.done = b.done ∧ a.dueDate ≤ b.dueDate) ∨ (a.done = false ∧ b.done = true) := by
  unfold taskLE taskCmp msPerDay
  cases ha : a.done <;> cases hb : b.done <;> simp [ha, hb]

theorem taskLE_total (a b : Task) : taskLE a b ∨ taskLE b a := by
  rw [taskLE_iff, taskLE_iff]
  cases ha : a.done <;> cases hb : b.done <;> simp <;> omega

theorem taskLE_trans (a b c : Task) : taskLE a b → taskLE b c → taskLE a c := by
  rw [taskLE_iff, taskLE_iff, taskLE_iff]
  cases ha : a.done <;> cases hb : b.done <;> cases hc : c.done <;> simp <;> omega

instance : IsTotal Task taskLE := ⟨taskLE_total⟩

instance : IsTrans Task taskLE := ⟨taskLE_trans⟩

theorem taskLE_disp {a b : Task} (h : taskLE a b) :
    (a.done = true → b.done = true) ∧ (a.done = b.done → a.dueDate ≤ b.dueDate) := by
  rw [taskLE_iff] at h
  rcases h with ⟨h1, h2⟩ | ⟨h1, h2⟩
  · exact ⟨fun ha => h1 ▸ ha, fun _ => h2⟩
  · exact ⟨fun _ => h2, fun hd => by rw [h1, h2] at hd; cases hd⟩

/-- C2: the ordering policy produces a display order of the same tasks in
which every incomplete task precedes every completed one and each group is
ascending by due date; on A(false, 2024-01-05), B(true, 2024-01-01),
C(false, 2024-01-03) it produces [C, A, B]. -/
theorem C2_ordering_policy (ts : List Task) :
    (sortTasks ts).Perm ts ∧
    (sortTasks ts).Pairwise
      (fun a b => (a.done = true → b.done = true) ∧
        (a.done = b.done → a.dueDate ≤ b.dueDate)) ∧
    sortTasks
        [{ id := "A", name := "A", dueDate := daysFromCivil 2024 1 5, done := false },
         { id := "B", name := "B", dueDate := daysFromCivil 2024 1 1, done := true },
         { id := "C", name := "C", dueDate := daysFromCivil 2024 1 3, done := false }] =
      [{ id := "C", name := "C", dueDate := daysFromCivil 2024 1 3, done := false },
       { id := "A", name := "A", dueDate := daysFromCivil 2024 1 5, done := false },
       { id := "B", name := "B", dueDate := daysFromCivil 2024 1 1, done := true }] :=
  ⟨List.perm_insertionSort taskLE ts,
   List.Pairwise.imp (fun h => taskLE_disp h) (List.sorted_insertionSort taskLE ts),
   by decide⟩

/-- C5: Create with a name trimming to empty fails with the validation
outcome, performs no storage I/O, leaves the storage cell unchanged, and
readAll afterwards returns what it returned before. -/
theorem C5_create_validation (name : String) (due now : Int) (store : Store)
    (h : jsTrim name = "") :
    saveTask name due now store =
      { store := store, outcome := .validationError, events := [] } ∧
    readAll (saveTask name due now store).store = readAll store := by
  constructor
  · simp [saveTask, h]
  · simp [saveTask, h]

theorem C5_witness :
    jsTrim "  " = "" ∧
    (saveTask "  " 0 0 (some (.tasks [{ id := "1", name := "x", dueDate := 0, done := false }])) =
      { store := some (.tasks [{ id := "1", name := "x", dueDate := 0, done := false }]),
        outcome := .validationError, events := [] } ∧
    readAll (saveTask "  " 0 0
        (some (.tasks [{ id := "1", name := "x", dueDate := 0, done := false }]))).store =
      readAll (some (.tasks [{ id := "1", name := "x", dueDate := 0, done := false }]))) :=
  ⟨by decide, C5_create_validation "  " 0 0 _ (by decide)⟩

/-- C6: toggling an id held by no task in the collection is a total no-op:
no write, no notification, collection unchanged. -/
theorem C6_toggle_absent (ts : List Task) (id : String) (h : ∀ t ∈ ts, t.id ≠ id) :
    toggleTask ts id = { tasks := ts, wrote := false, notifs := [] } := by
  have hf : ts.find? (fun t => t.id == id) = none := by
    rw [List.find?_eq_none]
    intro t ht
    simpa using h t ht
  simp [toggleTask, hf]

theorem C6_witness :
    (∀ t ∈ [{ id := "1", name := "a", dueDate := 0, done := false },
            { id := "2", name := "b", dueDate := 1, done := true }], Task.id t ≠ "9") ∧
    toggleTask
        [{ id := "1", name := "a", dueDate := 0, done := false },
         { id := "2", name := "b", dueDate := 1, done := true }] "9" =
      { tasks := [{ id := "1", name := "a", dueDate := 0, done := false },
                  { id := "2", name := "b", dueDate := 1, done := true }],
        wrote := false, notifs := [] } :=
  ⟨by decide, C6_toggle_absent _ "9" (by decide)⟩

/-- C9: readAll yields the empty collection both on an absent key and on a
stored value that fails to parse, in both cases without failing. -/
theorem C9_readAll_soft (b : Blob) (h : parseBlob b = none) :
    readAll none = [] ∧ readAll (some b) = [] := by
  refine ⟨rfl, ?_⟩
  cases b with
  | tasks ts => cases h
  | corrupt s =>
    simp only [readAll, loadTasks, parseBlob]
    split <;> rfl

theorem C9_witness :
    readAll none = [] ∧ readAll (some (.corrupt "oops")) = [] :=
  C9_readAll_soft (.corrupt "oops") (by decide)

theorem readAll_of_jsParseStored {store : Store} {ts : List Task}
    (h : jsParseStored store = some ts) : readAll store = ts := by
  cases store with
  | none =>
    simp [jsParseStored] at h
    simp [readAll, loadTasks, ← h]
  | some b =>
    cases b with
    | tasks l =>
      simp [jsParseStored, blobTruthy, parseBlob] at h
      simp [readAll, loadTasks, blobTruthy, parseBlob, h]
    | corrupt s =>
      by_cases hs : (s != "") = true
      · simp [jsParseStored, blobTruthy, parseBlob, hs] at h
      · simp [jsParseStored, blobTruthy, parseBlob, hs] at h
        simp [readAll, loadTasks, blobTruthy, hs, ← h]

/-- C1: a successful Create followed by readAll returns the prior
collection with exactly one task appended at the end, whose name is the
trimmed input name, whose done flag is false, and whose dueDate is the
input date with the time-of-day component dropped. -/
theorem C1_create_appends (name : String) (due now : Int) (store : Store)
    (h1 : jsTrim name ≠ "")
    (h2 : (saveTask name due now store).outcome = .success) :
    readAll (saveTask name due now store).store =
      readAll store ++
        [{ id := toString now, name := jsTrim name, dueDate := dateOnly due, done := false }] := by
  rcases hj : jsParseStored store with _ | ts
  · simp [saveTask, h1, hj] at h2
  · have hr := readAll_of_jsParseStored hj
    rw [hr]
    simp [saveTask, h1, hj, readAll, loadTasks, blobTruthy, parseBlob, newTask]

theorem C1_witness :
    jsTrim " plan trip " ≠ "" ∧
    (saveTask " plan trip " 1717977612345 99
        (some (.tasks [{ id := "1", name := "x", dueDate := 3, done := false }]))).outcome =
      .success ∧
    readAll (saveTask " plan trip " 1717977612345 99
        (some (.tasks [{ id := "1", name := "x", dueDate := 3, done := false }]))).store =
      readAll (some (.tasks [{ id := "1", name := "x", dueDate := 3, done := false }])) ++
        [{ id := toString (99 : Int), name := jsTrim " plan trip ",
           dueDate := dateOnly 1717977612345, done := false }] :=
  ⟨by decide, by decide, C1_create_appends " plan trip " 1717977612345 99 _ (by decide) (by decide)⟩

/-- C10 as stated is false: the stored value `""` is present and
unparseable (`JSON.parse("")` throws), yet `saveTask` treats it as an
absent value because it is falsy, succeeds, and overwrites it. -/
theorem C10_counterexample :
    parseBlob (.corrupt "") = none ∧
    (saveTask "a" 0 0 (some (.corrupt ""))).outcome = .success ∧
    (saveTask "a" 0 0 (some (.corrupt ""))).store ≠ some (.corrupt "") ∧
    StoreEvent.write ∈ (saveTask "a" 0 0 (some (.corrupt ""))).events := by decide

/-- C10 amended: when the stored value is present, unparseable and
non-empty (hence JS-truthy), Create with a valid name fails with the
save-error outcome, performs a read but no write, and leaves the stored
value unchanged. -/
theorem C10_corrupt_no_write (name : String) (due now : Int) (s : String)
    (h1 : jsTrim name ≠ "") (h2 : s ≠ "") :
    saveTask name due now (some (.corrupt s)) =
      { store := some (.corrupt s), outcome := .saveError, events := [.read] } := by
  simp [saveTask, h1, jsParseStored, blobTruthy, parseBlob, h2]

theorem C10_witness :
    jsTrim "a" ≠ "" ∧ "junk" ≠ "" ∧
    saveTask "a" 0 0 (some (.corrupt "junk")) =
      { store := some (.corrupt "junk"), outcome := .saveError, events := [.read] } :=
  ⟨by decide, by decide, C10_corrupt_no_write "a" 0 0 "junk" (by decide) (by decide)⟩

theorem ceilDiv_day (D now T : Int) (h1 : T * msPerDay ≤ now)
    (h2 : now < (T + 1) * msPerDay) :
    ceilDiv (D * msPerDay - now) msPerDay = D - T := by
  unfold ceilDiv msPerDay at *
  omega

theorem getDueDateColor_day (E now T : Int) (h1 : T * msPerDay ≤ now)
    (h2 : now < (T + 1) * msPerDay) :
    getDueDateColor E now =
      if E - T < 0 then "#ff4444"
      else if E - T = 0 then "#ffa500"
      else if E - T ≤ 2 then "#ffd700"
      else "#666" := by
  simp only [getDueDateColor]
  rw [ceilDiv_day E now T h1 h2]

/-- C8: with `daysDiff` the ceiling of the day-difference between the due
date and the current instant, the urgency color is the overdue color when
`daysDiff < 0`, the due-today color when it is 0, the due-soon color when
it is 1 or 2, and the default color otherwise; when today is 2024-06-10,
2024-06-09 is overdue, 2024-06-10 due today, 2024-06-12 due soon and
2024-06-20 default. -/
theorem C8_urgency_band (D now T : Int) (h1 : T * msPerDay ≤ now)
    (h2 : now < (T + 1) * msPerDay) :
    (ceilDiv (D * msPerDay - now) msPerDay < 0 → getDueDateColor D now = "#ff4444") ∧
    (ceilDiv (D * msPerDay - now) msPerDay = 0 → getDueDateColor D now = "#ffa500") ∧
    (1 ≤ ceilDiv (D * msPerDay - now) msPerDay ∧ ceilDiv (D * msPerDay - now) msPerDay ≤ 2 →
      getDueDateColor D now = "#ffd700") ∧
    (2 < ceilDiv (D * msPerDay - now) msPerDay → getDueDateColor D now = "#666") ∧
    (T = daysFromCivil 2024 6 10 →
      getDueDateColor (daysFromCivil 2024 6 9) now = "#ff4444" ∧
      getDueDateColor (daysFromCivil 2024 6 10) now = "#ffa500" ∧
      getDueDateColor (daysFromCivil 2024 6 12) now = "#ffd700" ∧
      getDueDateColor (daysFromCivil 2024 6 20) now = "#666") := by
  have key : ∀ E : Int, ceilDiv (E * msPerDay - now) msPerDay = E - T := fun E =>
    ceilDiv_day E now T h1 h2
  have color : ∀ E : Int, getDueDateColor E now =
      if E - T < 0 then "#ff4444"
      else if E - T = 0 then "#ffa500"
      else if E - T ≤ 2 then "#ffd700"
      else "#666" := fun E => getDueDateColor_day E now T h1 h2
  refine ⟨?_, ?_, ?_, ?_, ?_⟩
  · intro h
    rw [key] at h
    rw [color, if_pos h]
  · intro h
    rw [key] at h
    rw [color, if_neg (by omega), if_pos h]
  · intro h
    rw [key] at h
    rw [color, if_neg (by omega), if_neg (by omega), if_pos (by omega)]
  · intro h
    rw [key] at h
    rw [color, if_neg (by omega), if_neg (by omega), if_neg (by omega)]
  · intro hT
    subst hT
    refine ⟨?_, ?_, ?_, ?_⟩ <;> rw [color] <;> decide

theorem C8_witness :
    getDueDateColor (daysFromCivil 2024 6 9) 1717977612345 = "#ff4444" ∧
    getDueDateColor (daysFromCivil 2024 6 10) 1717977612345 = "#ffa500" ∧
    getDueDateColor (daysFromCivil 2024 6 12) 1717977612345 = "#ffd700" ∧
    getDueDateColor (daysFromCivil 2024 6 20) 1717977612345 = "#666" :=
  (C8_urgency_band 0 1717977612345 (daysFromCivil 2024 6 10)
    (by decide) (by decide)).2.2.2.2 rfl

/-- C3 is the spec's intent but the code mutates: the render expression
`tasks.sort(...)` calls `Array.prototype.sort`, which reorders the state
array in place, so at the input [done-task, not-done-task] the collection
referenced by the input variable differs from the original input after
the ordering is computed. -/
theorem C3_sort_mutates :
    (renderSort
        [{ id := "1", name := "a", dueDate := 0, done := true },
         { id := "2", name := "b", dueDate := 0, done := false }]).2 ≠
      [{ id := "1", name := "a", dueDate := 0, done := true },
       { id := "2", name := "b", dueDate := 0, done := false }] := by decide

theorem toggleTask_map_id (ts : List Task) (id : String) :
    ((toggleTask ts id).tasks).map Task.id = ts.map Task.id := by
  unfold toggleTask
  cases h : ts.find? (fun t => t.id == id) with
  | none => rfl
  | some t =>
    simp only [List.map_map]
    apply List.map_congr_left
    intro u hu
    simp only [Function.comp]
    split <;> rfl

theorem nodup_append_fresh {ts : List Task} {t : Task} (h : (ts.map Task.id).Nodup)
    (hf : t.id ∉ ts.map Task.id) : ((ts ++ [t]).map Task.id).Nodup := by
  rw [List.map_append]
  simp [List.nodup_append, h, hf]

/-- C4 as stated is false: Create draws the fresh id from the millisecond
clock with no uniqueness check, so a Create whose timestamp string equals
an id already in the collection produces a duplicate id. -/
theorem C4_counterexample :
    (([{ id := "5", name := "a", dueDate := 0, done := false }] : List Task).map Task.id).Nodup ∧
    ¬ ((applyOps [{ id := "5", name := "a", dueDate := 0, done := false }]
        [.create "b" 0 5]).map Task.id).Nodup := by decide

/-- C4 amended: starting from a collection with pairwise-distinct ids,
any sequence of Create and Toggle operations keeps the ids pairwise
distinct, provided every appending Create runs at a timestamp whose
string form differs from every id present at that moment (Toggle never
changes the ids; Create appends one task with the timestamp id). -/
theorem C4_ids_nodup (ts : List Task) (ops : List Op)
    (h : (ts.map Task.id).Nodup) (hf : freshOps ts ops = true) :
    ((applyOps ts ops).map Task.id).Nodup := by
  induction ops generalizing ts with
  | nil => simpa [applyOps] using h
  | cons op ops ih =>
    have hstep : (((applyOp ts op).map Task.id).Nodup) ∧ freshOps (applyOp ts op) ops = true := by
      cases op with
      | create name due now =>
        unfold freshOps at hf
        rw [Bool.and_eq_true] at hf
        obtain ⟨hfresh, hrest⟩ := hf
        refine ⟨?_, hrest⟩
        simp only [applyOp]
        by_cases hn : jsTrim name = ""
        · simpa [hn] using h
        · rw [if_neg hn]
          simp only [Bool.or_eq_true, beq_iff_eq, List.all_eq_true, bne_iff_ne] at hfresh
          rcases hfresh with h' | h'
          · exact absurd h' hn
          · exact nodup_append_fresh h (fun hmem => h' _ hmem rfl)
      | toggle id =>
        unfold freshOps at hf
        refine ⟨?_, hf⟩
        show (((toggleTask ts id).tasks).map Task.id).Nodup
        rw [toggleTask_map_id]
        exact h
    have : applyOps ts (op :: ops) = applyOps (applyOp ts op) ops := by
      simp [applyOps]
    rw [this]
    exact ih (applyOp ts op) hstep.1 hstep.2

theorem C4_witness :
    (([{ id := "1", name := "a", dueDate := 0, done := false }] : List Task).map Task.id).Nodup ∧
    freshOps [{ id := "1", name := "a", dueDate := 0, done := false }]
      [.create "b" 0 7, .toggle "1"] = true ∧
    ((applyOps [{ id := "1", name := "a", dueDate := 0, done := false }]
        [.create "b" 0 7, .toggle "1"]).map Task.id).Nodup :=
  ⟨by decide, by decide, C4_ids_nodup _ _ (by decide) (by decide)⟩

theorem toggleTask_eq_of_find (ts : List Task) (id : String) (t : Task)
    (h : ts.find? (fun u => u.id == id) = some t) :
    toggleTask ts id =
      { tasks := ts.map (fun u => if u.id == id then { u with done := !t.done } else u),
        wrote := true,
        notifs := [(t.name, !t.done)] } := by
  unfold toggleTask
  rw [h]

/-- C7: on a collection whose ids are pairwise distinct (the data model's
collection invariant) and which contains a task with the given id,
toggling that id twice in sequence, the first write completing before the
second read, restores the collection — in particular that task's done
flag returns to its original value. -/
theorem C7_toggle_involution (ts : List Task) (id : String)
    (hnd : (ts.map Task.id).Nodup) (_hmem : ∃ t ∈ ts, t.id = id) :
    (toggleTask (toggleTask ts id).tasks id).tasks = ts := by
  cases hfind : ts.find? (fun u => u.id == id) with
  | none =>
    simp [toggleTask, hfind]
  | some t =>
    have htmem : t ∈ ts := List.mem_of_find?_eq_some hfind
    have htid : (t.id == id) = true := by simpa using List.find?_some hfind
    have h1 : (toggleTask ts id).tasks =
        ts.map (fun u => if u.id == id then { u with done := !t.done } else u) :=
      congrArg ToggleResult.tasks (toggleTask_eq_of_find ts id t hfind)
    have hp : ((fun u : Task => u.id == id) ∘
        fun u => if u.id == id then { u with done := !t.done } else u) =
        fun u : Task => u.id == id := by
      funext u
      simp only [Function.comp]
      split <;> rfl
    have h2 : (ts.map (fun u => if u.id == id then { u with done := !t.done } else u)).find?
        (fun u => u.id == id) = some { t with done := !t.done } := by
      rw [List.find?_map, hp, hfind, Option.map_some', if_pos htid]
    rw [h1, congrArg ToggleResult.tasks
      (toggleTask_eq_of_find _ id { t with done := !t.done } h2)]
    rw [List.map_map]
    have key : ∀ u ∈ ts,
        ((fun u => if u.id == id then
            { u with done := !({ t with done := !t.done } : Task).done } else u) ∘
          fun u => if u.id == id then { u with done := !t.done } else u) u = u := by
      intro u hu
      simp only [Function.comp]
      by_cases hc : (u.id == id) = true
      · have hu_eq : u = t :=
          List.inj_on_of_nodup_map hnd hu htmem
            (by rw [beq_iff_eq] at hc htid; rw [hc, htid])
      

        rw [if_pos hc]
        have hc2 : (({ u with done := !t.done } : Task).id == id) = true := hc
        rw [if_pos hc2]
        show ({ u with done := !(!t.done) } : Task) = u
        rw [Bool.not_not, hu_eq]
      · rw [if_neg hc, if_neg hc]
    rw [List.map_congr_left key, List.map_id']

theorem C7_witness :
    (([{ id := "1", name := "a", dueDate := 0, done := false },
       { id := "2", name := "b", dueDate := 1, done := true }] : List Task).map Task.id).Nodup ∧
    (∃ t ∈ ([{ id := "1", name := "a", dueDate := 0, done := false },
             { id := "2", name := "b", dueDate := 1, done := true }] : List Task), t.id = "1") ∧
    (toggleTask (toggleTask
        [{ id := "1", name := "a", dueDate := 0, done := false },
         { id := "2", name := "b", dueDate := 1, done := true }] "1").tasks "1").tasks =
      [{ id := "1", name := "a", dueDate := 0, done := false },
       { id := "2", name := "b", dueDate := 1, done := true }] :=
  ⟨by decide, by decide, C7_toggle_involution _ "1" (by decide) (by decide)⟩

end TaskManager
